import Mathlib

/-!
Shallow embedding of the query-plan executor of `backend_api.py`:
column normalization and alias resolution (`_normalize`, `_column_alias_map`,
the inner `map_col` of `_remap_plan_columns`), the predicate filter evaluator
(`_apply_filters`) and the plan executor (`_execute_plan`).

Cell values are modelled by `Value`: rationals stand for the numeric values a
pandas column holds (ints and floats; aggregate results such as means are
exact rationals here), strings for text, `null` for NaN/None.  A Python
exception escaping `_execute_plan` is modelled by `none` in the executor's
`Option` result; the `(summary, table-or-absent)` pair the function returns
normally is the `some` payload, with the absent table as the inner `none`.
-/

/-- A cell of the in-memory table: numeric, text or missing (NaN/None). -/
inductive Value where
  | num : Rat → Value
  | str : String → Value
  | null : Value
deriving DecidableEq, Repr

/-- The dataset: named columns and rows of cells aligned with `cols`
(`pd.DataFrame` as the engine reads it: column labels plus value rows). -/
structure Table where
  cols : List String
  rows : List (List Value)
deriving DecidableEq, Repr

/-- Index of column `c`, `cols.length` when absent (only used after a
membership test, as in the Python, so the default never shows). -/
def colIdx (cols : List String) (c : String) : Nat :=
  cols.findIdx (fun x => x == c)

/-- The cell of row `r` in column `c` (missing column yields `null`). -/
def cellAt (cols : List String) (c : String) (r : List Value) : Value :=
  r.getD (colIdx cols c) Value.null

/-- All values of column `c`, in row order (`df[col]`). -/
def colVals (t : Table) (c : String) : List Value :=
  t.rows.map (cellAt t.cols c)

/-- Python `str.lower` on one character (the ASCII range the data uses). -/
def asciiLower (c : Char) : Char :=
  if c.isUpper then Char.ofNat (c.toNat + 32) else c

/-- Python `str.lower` (ASCII).  Implemented over the character list so that
closed statements evaluate inside the kernel. -/
def strLower (s : String) : String := String.mk (s.data.map asciiLower)

/-- Python `str.strip`: drop whitespace from both ends. -/
def pyTrim (s : String) : String :=
  String.mk (((s.data.dropWhile Char.isWhitespace).reverse.dropWhile
    Char.isWhitespace).reverse)

/-- Split a character list on a separator character (`str.split(sep)` for
the one-character separators the source uses). -/
def splitOnChar (sep : Char) : List Char → List (List Char)
  | [] => [[]]
  | c :: cs =>
    let r := splitOnChar sep cs
    if c = sep then [] :: r
    else
      match r with
      | [] => [[c]]
      | h :: t => (c :: h) :: t

/-- Decimal digit parsing: the whole list must be digits and nonempty. -/
def parseNatL (l : List Char) : Option Nat :=
  l.foldl
    (fun acc c =>
      match acc with
      | some n => if c.isDigit then some (n * 10 + (c.toNat - 48)) else none
      | none => none)
    (if l = [] then none else some 0)

/-- Signed decimal integer parsing (`int(s)` on plain numerals). -/
def parseIntL : List Char → Option Int
  | '-' :: rest => (parseNatL rest).map (fun n => -(n : Int))
  | l => (parseNatL l).map (fun n => (n : Int))

/-- Parse a decimal string as an exact rational; models `pd.to_numeric` on
the string scalars the plans use (optional sign, digits, optional fraction). -/
def parseNum (s0 : String) : Option Rat :=
  let l := (pyTrim s0).data
  match parseIntL l with
  | some n => some (n : Rat)
  | none =>
    match splitOnChar '.' l with
    | [a, b] =>
      match parseIntL a, parseNatL b with
      | some ai, some bn =>
        let mag : Rat := (ai.natAbs : Rat) + (bn : Rat) / ((10 ^ b.length : Nat) : Rat)
        some (match l with | '-' :: _ => -mag | _ => mag)
      | _, _ => none
    | _ => none

/-- Numeric coercion of one cell (`pd.to_numeric(x, errors="coerce")`):
numbers pass through, parseable strings parse, everything else is NaN. -/
def toNum : Value → Option Rat
  | Value.num q => some q
  | Value.str s => parseNum s
  | Value.null => none

/-- Models `pd.to_datetime(x, errors="coerce")` on the comparable domain the
plans use: ISO `YYYY-MM-DD` strings become a lexicographically ordered key,
whole numbers pass through (epoch offsets), everything else is NaT. -/
def parseDate (s : String) : Option Int :=
  match splitOnChar '-' (pyTrim s).data with
  | [y, m, d] =>
    match parseNatL y, parseNatL m, parseNatL d with
    | some yn, some mn, some dn => some ((yn * 10000 + mn * 100 + dn : Nat) : Int)
    | _, _, _ => none
  | _ => none

/-- Datetime coercion of one cell, see `parseDate`. -/
def toDate : Value → Option Int
  | Value.num q => if q.den = 1 then some q.num else none
  | Value.str s => parseDate s
  | Value.null => none

/-- String conversion of a cell (`series.astype(str)` elementwise):
int-valued numbers print without a fractional part, NaN prints "nan". -/
def toStr : Value → String
  | Value.num q => if q.den = 1 then toString q.num else toString q
  | Value.str s => s
  | Value.null => "nan"

/-- `str(value)` for the clause operand; Python renders a missing value
(`None`) as "None". -/
def valueStr : Option Value → String
  | none => "None"
  | some v => toStr v

/-- Does `pat` occur at the head of `l`? -/
def startsWithL : List Char → List Char → Bool
  | [], _ => true
  | _ :: _, [] => false
  | p :: ps, c :: cs => p == c && startsWithL ps cs

/-- Substring occurrence over character lists. -/
def containsL (pat : List Char) : List Char → Bool
  | [] => startsWithL pat []
  | c :: cs => startsWithL pat (c :: cs) || containsL pat cs

/-- Case-insensitive operand comparison is done on lower-cased text in the
source; this is the plain (regex-free) substring test `str.contains` performs
on the literal needles the plans carry. -/
def containsSub (s pat : String) : Bool :=
  containsL pat.data s.data

/-- `lo ≤ x ≤ hi` over coerced operands; any coercion failure (NaN/NaT)
makes the row fail the clause, as NaN comparisons are false in pandas. -/
def betweenCmp {α : Type} [LinearOrder α] (x lo hi : Option α) : Bool :=
  match x, lo, hi with
  | some a, some l, some h => decide (l ≤ a ∧ a ≤ h)
  | _, _, _ => false

/-- `a > b` on coerced operands, false on coercion failure. -/
def gtCmp (a b : Option Rat) : Bool :=
  match a, b with
  | some x, some y => decide (y < x)
  | _, _ => false

/-- `a < b` on coerced operands, false on coercion failure. -/
def ltCmp (a b : Option Rat) : Bool :=
  match a, b with
  | some x, some y => decide (x < y)
  | _, _ => false

/-- One filter clause of a plan, shaped as `_apply_filters` reads it:
`column`, `op` and the operands are all optional.  `endv` carries the
Python key "end" (a Lean keyword). -/
structure FilterClause where
  column : Option String
  op : Option String
  value : Option Value
  low : Option Value
  high : Option Value
  start : Option Value
  endv : Option Value
deriving DecidableEq, Repr

/-- A clause with only column/op/value set, as most plans carry. -/
def simpleClause (c op : Option String) (v : Option Value) : FilterClause :=
  ⟨c, op, v, none, none, none, none⟩

/-- One pass of the loop body of `_apply_filters`: narrow `rows` by clause
`f`, or leave them unchanged when the column is falsy/unknown or the
operator is not recognized. -/
def applyClause (cols : List String) (rows : List (List Value)) (f : FilterClause) :
    List (List Value) :=
  match f.column with
  | none => rows
  | some c =>
    if c = "" ∨ c ∉ cols then rows
    else
      match f.op with
      | none => rows
      | some op =>
        if op = "eq" ∨ op = "==" then
          rows.filter (fun r => strLower (toStr (cellAt cols c r)) == strLower (valueStr f.value))
        else if op = "ne" ∨ op = "!=" then
          rows.filter (fun r => strLower (toStr (cellAt cols c r)) != strLower (valueStr f.value))
        else if op = ">" ∨ op = "gt" then
          rows.filter (fun r => gtCmp (toNum (cellAt cols c r)) (f.value.bind toNum))
        else if op = "<" ∨ op = "lt" then
          rows.filter (fun r => ltCmp (toNum (cellAt cols c r)) (f.value.bind toNum))
        else if op = "contains" ∨ op = "icontains" then
          rows.filter (fun r =>
            containsSub (strLower (toStr (cellAt cols c r))) (strLower (valueStr f.value)))
        else if op = "between" then
          rows.filter (fun r =>
            betweenCmp (toNum (cellAt cols c r)) (f.low.bind toNum) (f.high.bind toNum))
        else if op = "date_between" then
          rows.filter (fun r =>
            betweenCmp (toDate (cellAt cols c r)) (f.start.bind toDate) (f.endv.bind toDate))
        else rows

/-- `_apply_filters`: clauses applied conjunctively in list order; the column
set never changes. -/
def applyFiltersT (t : Table) (fs : List FilterClause) : Table :=
  ⟨t.cols, fs.foldl (fun rows f => applyClause t.cols rows f) t.rows⟩

/-- Constructor rank used for `vle` off the same-kind diagonal: pandas sorts
NaN last (`na_position="last"`) whatever the direction; the num-before-str
tie-break totalizes an order pandas would raise on (never exercised by the
homogeneous columns the theorems and counterexamples use). -/
def valRank : Value → Nat
  | Value.num _ => 0
  | Value.str _ => 1
  | Value.null => 2

/-- Lexicographic code-point comparison of character lists (Python/pandas
string ordering). -/
def charsLe : List Char → List Char → Bool
  | [], _ => true
  | _ :: _, [] => false
  | a :: as, b :: bs => if a < b then true else if b < a then false else charsLe as bs

/-- Characterization of `charsLe` on two nonempty lists. -/
def charsLe_cons (a b : Char) (as bs : List Char) :
    (charsLe (a :: as) (b :: bs) = true) ↔ (a < b ∨ (a = b ∧ charsLe as bs = true)) := by
  show ((if a < b then true else if b < a then false else charsLe as bs) = true) ↔ _
  split_ifs with hab hba
  · simp [hab]
  · constructor
    · intro h
      cases h
    · rintro (h | ⟨rfl, -⟩)
      · exact absurd h hab
      · exact absurd hba (lt_irrefl _)
  · have heq : a = b := le_antisymm (not_lt.mp hba) (not_lt.mp hab)
    simp [heq]

/-- `charsLe` is total. -/
def charsLe_total : ∀ (l1 l2 : List Char), charsLe l1 l2 = true ∨ charsLe l2 l1 = true := by
  intro l1
  induction l1 with
  | nil => intro l2; left; rfl
  | cons a as ih =>
    intro l2
    cases l2 with
    | nil => right; rfl
    | cons b bs =>
      rcases lt_trichotomy a b with h | h | h
      · left
        exact (charsLe_cons a b as bs).mpr (Or.inl h)
      · rcases ih bs with h2 | h2
        · left
          exact (charsLe_cons a b as bs).mpr (Or.inr ⟨h, h2⟩)
        · right
          exact (charsLe_cons b a bs as).mpr (Or.inr ⟨h.symm, h2⟩)
      · right
        exact (charsLe_cons b a bs as).mpr (Or.inl h)

/-- `charsLe` is transitive. -/
def charsLe_trans : ∀ {l1 l2 l3 : List Char}, charsLe l1 l2 = true →
    charsLe l2 l3 = true → charsLe l1 l3 = true := by
  intro l1
  induction l1 with
  | nil => intro l2 l3 _ _; rfl
  | cons a as ih =>
    intro l2 l3 h1 h2
    cases l2 with
    | nil => cases h1
    | cons b bs =>
      cases l3 with
      | nil => cases h2
      | cons c cs =>
        rcases (charsLe_cons a b as bs).mp h1 with hab | ⟨rfl, hab⟩
        · rcases (charsLe_cons b c bs cs).mp h2 with hbc | ⟨rfl, hbc⟩
          · exact (charsLe_cons a c as cs).mpr (Or.inl (lt_trans hab hbc))
          · exact (charsLe_cons a b as cs).mpr (Or.inl hab)
        · rcases (charsLe_cons a c bs cs).mp h2 with hbc | ⟨rfl, hbc⟩
          · exact (charsLe_cons a c as cs).mpr (Or.inl hbc)
          · exact (charsLe_cons a a as cs).mpr (Or.inr ⟨rfl, ih hab hbc⟩)

/-- String comparison as pandas sorts object columns. -/
def strLe (a b : String) : Bool := charsLe a.data b.data

/-- Ascending cell comparison (`sort_values(ascending=True)`): numbers
numerically, strings lexicographically, nulls last. -/
def vleA : Value → Value → Bool
  | Value.num x, Value.num y => decide (x ≤ y)
  | Value.num _, Value.str _ => true
  | Value.num _, Value.null => true
  | Value.str _, Value.num _ => false
  | Value.str x, Value.str y => strLe x y
  | Value.str _, Value.null => true
  | Value.null, Value.num _ => false
  | Value.null, Value.str _ => false
  | Value.null, Value.null => true

/-- Descending cell comparison: the per-kind order flips, but nulls still
sort last (`na_position="last"` holds in both directions in pandas). -/
def vleD : Value → Value → Bool
  | Value.num x, Value.num y => decide (y ≤ x)
  | Value.num _, Value.str _ => true
  | Value.num _, Value.null => true
  | Value.str _, Value.num _ => false
  | Value.str x, Value.str y => strLe y x
  | Value.str _, Value.null => true
  | Value.null, Value.num _ => false
  | Value.null, Value.str _ => false
  | Value.null, Value.null => true

/-- Sort-key comparison on cells, direction selected by `asc`. -/
def vle : Bool → Value → Value → Bool
  | true, a, b => vleA a b
  | false, a, b => vleD a b

/-- Totality of `vle` (proof-carrying definition used by the `IsTotal`
instance below). -/
def vle_total (asc : Bool) (a b : Value) : vle asc a b = true ∨ vle asc b a = true := by
  cases asc <;> cases a <;> cases b <;>
    first
      | exact Or.inl rfl
      | exact Or.inr rfl
      | (simp only [vle, vleA, vleD, decide_eq_true_eq]
         exact le_total _ _)
      | (simp only [vle, vleA, vleD, strLe]
         exact charsLe_total _ _)

/-- Transitivity of `vle` (used by the `IsTrans` instance below). -/
def vle_trans (asc : Bool) {a b c : Value} (h1 : vle asc a b = true)
    (h2 : vle asc b c = true) : vle asc a c = true := by
  cases asc <;> cases a <;> cases b <;> cases c <;>
    first
      | rfl
      | exact (Bool.false_ne_true h1).elim
      | exact (Bool.false_ne_true h2).elim
      | (simp only [vle, vleA, vleD, decide_eq_true_eq] at h1 h2 ⊢
         first
           | exact le_trans h1 h2
           | exact le_trans h2 h1)
      | (simp only [vle, vleA, vleD, strLe] at h1 h2 ⊢
         first
           | exact charsLe_trans h1 h2
           | exact charsLe_trans h2 h1)

/-- Row comparison under one sort key: compare the cells of column `c`. -/
def rowLe (cols : List String) (c : String) (asc : Bool) (r1 r2 : List Value) : Prop :=
  vle asc (cellAt cols c r1) (cellAt cols c r2) = true

instance rowLeDec (cols : List String) (c : String) (asc : Bool) :
    DecidableRel (rowLe cols c asc) :=
  fun _ _ => inferInstanceAs (Decidable (vle asc _ _ = true))

instance rowLeTotal (cols : List String) (c : String) (asc : Bool) :
    IsTotal (List Value) (rowLe cols c asc) :=
  ⟨fun r1 r2 => vle_total asc (cellAt cols c r1) (cellAt cols c r2)⟩

instance rowLeTrans (cols : List String) (c : String) (asc : Bool) :
    IsTrans (List Value) (rowLe cols c asc) :=
  ⟨fun _ _ _ h1 h2 => vle_trans asc h1 h2⟩

/-- `df.sort_values(by=c, ascending=asc)`: rows reordered by the cells of
column `c` (nulls last); the columns are unchanged. -/
def sortValues (t : Table) (c : String) (asc : Bool) : Table :=
  ⟨t.cols, List.insertionSort (rowLe t.cols c asc) t.rows⟩

/-- `df.head(n)`: the first `n` rows; pandas reads a negative `n` as "all but
the last `|n|`". -/
def headN (n : Int) (l : List (List Value)) : List (List Value) :=
  if 0 ≤ n then l.take n.toNat else l.take (l.length - (-n).toNat)

/-- `df.head(n)` at the table level. -/
def headTable (n : Int) (t : Table) : Table :=
  ⟨t.cols, headN n t.rows⟩

/-- One requested metric of an aggregate plan, as `_execute_plan` reads it
(the "alias" key the planner may emit is never read by the executor). -/
structure Metric where
  agg : Option String
  column : Option String
deriving DecidableEq, Repr

/-- One sort key of a plan; `direction` is absent when the key "direction"
is missing (then "asc" is the `dict.get` default). -/
structure SortKey where
  column : Option String
  direction : Option String
deriving DecidableEq, Repr

/-- The plan shape `_execute_plan` consumes.  Fields the JSON leaves out (or
sets to null) are `none`; the executor substitutes its own defaults. -/
structure Plan where
  task : Option String
  filters : List FilterClause
  groupby : List String
  metrics : List Metric
  limit : Option Int
  sort : List SortKey
  k : Option Int
  rank_by : Option String
deriving DecidableEq, Repr

/-- Python's `x or d` on an optional integer: `None` and `0` are falsy. -/
def pyIntOr (x : Option Int) (d : Int) : Int :=
  match x with
  | none => d
  | some n => if n = 0 then d else n

/-- Python's `x or d` on an optional string: `None` and `""` are falsy. -/
def pyStrOr (x : Option String) (d : String) : String :=
  match x with
  | none => d
  | some s => if s = "" then d else s

/-- `(plan.get("task") or "aggregate").lower()`. -/
def taskEff (plan : Plan) : String :=
  strLower (pyStrOr plan.task "aggregate")

/-- `pd.to_numeric(series, errors="ignore")`: all-or-nothing.  If every value
of the column coerces (nulls coerce to NaN), the whole column becomes
numeric; if any single value fails, the column is returned UNCHANGED. -/
def toNumericIgnore (vs : List Value) : List Value :=
  if vs.all (fun v => decide (v = Value.null) || (toNum v).isSome) then
    vs.map (fun v => match toNum v with | some q => Value.num q | none => Value.null)
  else vs

/-- Replace the cells of column `c` by `vs` (`work[col] = series`). -/
def setCol (t : Table) (c : String) (vs : List Value) : Table :=
  ⟨t.cols, (t.rows.zip vs).map (fun pr => pr.1.set (colIdx t.cols c) pr.2)⟩

/-- The metric-column coercion loop that `_execute_plan` runs before
dispatching on the task: each metric column present in the table goes
through `pd.to_numeric(..., errors="ignore")`. -/
def coerceMetricCols (t : Table) (metrics : List Metric) : Table :=
  metrics.foldl (fun acc m =>
    match m.column with
    | some c =>
      if c ≠ "" ∧ c ∈ acc.cols then setCol acc c (toNumericIgnore (colVals acc c)) else acc
    | none => acc) t

/-- The filtered-and-coerced working table every task branch sees. -/
def planWork (df : Table) (plan : Plan) : Table :=
  coerceMetricCols (applyFiltersT df plan.filters) plan.metrics

/-- `ALLOWED_AGGS` of the source. -/
def ALLOWED_AGGS : List String :=
  ["count", "sum", "mean", "avg", "median", "min", "max", "nunique"]

/-- `(m.get("agg") or "").lower()` followed by `RENAME_AGG` (avg → mean). -/
def normAgg (m : Metric) : String :=
  let a := strLower (pyStrOr m.agg "")
  if a = "avg" then "mean" else a

/-- The short-circuit test of the metric loop:
`agg == "count" and (not col or col == "*")`. -/
def countStar (m : Metric) : Bool :=
  normAgg m == "count" &&
    decide (m.column = none ∨ m.column = some "" ∨ m.column = some "*")

/-- `agg_map.setdefault(col, []).append(agg)`: insertion-ordered dict of
column → list of aggregate names. -/
def addAgg (acc : List (String × List String)) (c a : String) :
    List (String × List String) :=
  if acc.any (fun p => p.1 == c) then
    acc.map (fun p => if p.1 = c then (p.1, p.2 ++ [a]) else p)
  else acc ++ [(c, [a])]

/-- Outcome of the metric loop of the aggregate branch: either the loop
returned early on a count-with-no-column metric, or it fell through with
the accumulated `agg_map`. -/
inductive AggScan where
  | shortCircuit : AggScan
  | fellThrough : List (String × List String) → AggScan
deriving DecidableEq, Repr

/-- The metric loop of the aggregate branch of `_execute_plan`, scanning
metrics in order: disallowed aggregate kinds are skipped, a count with a
missing/wildcard column returns early, a metric with a resolvable column is
recorded, anything else is dropped. -/
def scanMetrics (cols : List String) (acc : List (String × List String)) :
    List Metric → AggScan
  | [] => AggScan.fellThrough acc
  | m :: rest =>
    let a := normAgg m
    if a ∉ ALLOWED_AGGS then scanMetrics cols acc rest
    else if countStar m then AggScan.shortCircuit
    else
      match m.column with
      | some c =>
        if c ≠ "" ∧ c ∈ cols then scanMetrics cols (addAgg acc c a) rest
        else scanMetrics cols acc rest
      | none => scanMetrics cols acc rest

/-- First-occurrence deduplication (Python dict/index insertion order). -/
def dedupFirstAux {α : Type} [DecidableEq α] (seen : List α) : List α → List α
  | [] => []
  | a :: l => if a ∈ seen then dedupFirstAux seen l else a :: dedupFirstAux (a :: seen) l

/-- Strict ascending cell comparison, for the lexicographic group-key order. -/
def vltA (a b : Value) : Bool := vleA a b && ! vleA b a

/-- Lexicographic ascending order on group-key tuples: `groupby(sort=True)`
emits groups in this order (null keys last, from `vleA`). -/
def keyLe : List Value → List Value → Bool
  | [], _ => true
  | _ :: _, [] => false
  | a :: as, b :: bs => if vltA a b then true else if vltA b a then false else keyLe as bs

/-- `keyLe` as a decidable relation for sorting. -/
def keyLeProp (k1 k2 : List Value) : Prop := keyLe k1 k2 = true

instance keyLePropDec : DecidableRel keyLeProp :=
  fun k1 k2 => inferInstanceAs (Decidable (keyLe k1 k2 = true))

/-- The group-key tuple of one row. -/
def keyOf (cols : List String) (gby : List String) (r : List Value) : List Value :=
  gby.map (fun g => cellAt cols g r)

/-- The distinct group keys in the order `groupby(gby, dropna=False, sort=True)`
emits them: value-level equality (NaN keys form their own group) and sorted
ascending. -/
def sortedGroupKeys (t : Table) (gby : List String) : List (List Value) :=
  List.insertionSort keyLeProp (dedupFirstAux [] (t.rows.map (keyOf t.cols gby)))

/-- The rows of one group. -/
def groupRows (t : Table) (gby : List String) (key : List Value) : List (List Value) :=
  t.rows.filter (fun r => decide (keyOf t.cols gby r = key))

/-- The row-count table: `pd.DataFrame({"count": [len(work)]})` when there is
no grouping, else `gb.size().reset_index(name="count")`. -/
def countTable (t : Table) (gby : List String) : Table :=
  if gby = [] then ⟨["count"], [[Value.num ((t.rows.length : Nat) : Rat)]]⟩
  else
    ⟨gby ++ ["count"],
      (sortedGroupKeys t gby).map (fun key =>
        key ++ [Value.num (((groupRows t gby key).length : Nat) : Rat)])⟩

/-- The numeric (non-null, coerced-dtype) entries of a column. -/
def numsOf (vs : List Value) : List Rat :=
  vs.filterMap (fun v => match v with | Value.num q => some q | _ => none)

/-- The string entries of a column. -/
def strsOf (vs : List Value) : List String :=
  vs.filterMap (fun v => match v with | Value.str s => some s | _ => none)

/-- Every value is numeric. -/
def allNum (vs : List Value) : Bool :=
  vs.all (fun v => match v with | Value.num _ => true | _ => false)

/-- Every value is a string. -/
def allStr (vs : List Value) : Bool :=
  vs.all (fun v => match v with | Value.str _ => true | _ => false)

/-- The non-null values of a column (numeric aggregates skip NaN). -/
def nonNull (vs : List Value) : List Value :=
  vs.filter (fun v => decide (v ≠ Value.null))

/-- Sum of a rational list. -/
def sumRat (ns : List Rat) : Rat := ns.foldl (fun a b => a + b) 0

/-- Median of a rational list (pandas: average of the two middle elements
when the count is even); `null` on the empty list (NaN). -/
def medianRat (ns : List Rat) : Value :=
  let sorted := List.insertionSort (fun a b : Rat => a ≤ b) ns
  let n := sorted.length
  if n = 0 then Value.null
  else if n % 2 = 1 then Value.num (sorted.getD (n / 2) 0)
  else Value.num ((sorted.getD (n / 2 - 1) 0 + sorted.getD (n / 2) 0) / 2)

/-- One aggregate evaluation (`Series.agg(fn)`) over the values of a column,
after the `errors="ignore"` coercion pass.  `none` models the TypeError
pandas raises when a numeric aggregate meets a non-numeric column (the
whole `_execute_plan` call then fails).  `count`/`nunique` work on any
dtype; `sum` concatenates a pure-string column; `min`/`max` compare a
pure-string column lexicographically. -/
def aggCell (fn : String) (vs : List Value) : Option Value :=
  if fn = "count" then some (Value.num (((nonNull vs).length : Nat) : Rat))
  else if fn = "nunique" then some (Value.num ((((nonNull vs).dedup).length : Nat) : Rat))
  else if fn = "sum" then
    if allNum (nonNull vs) then some (Value.num (sumRat (numsOf vs)))
    else if allStr vs then some (Value.str (String.join (strsOf vs)))
    else none
  else if fn = "mean" then
    if allNum (nonNull vs) then
      let ns := numsOf vs
      if ns.length = 0 then some Value.null
      else some (Value.num (sumRat ns / (ns.length : Rat)))
    else none
  else if fn = "median" then
    if allNum (nonNull vs) then some (medianRat (numsOf vs)) else none
  else if fn = "min" then
    if allNum (nonNull vs) then
      match numsOf vs with
      | [] => some Value.null
      | n :: ns => some (Value.num (ns.foldl (fun a b => min a b) n))
    else if allStr vs then
      match strsOf vs with
      | [] => some Value.null
      | s :: ss => some (Value.str (ss.foldl (fun a b => min a b) s))
    else none
  else if fn = "max" then
    if allNum (nonNull vs) then
      match numsOf vs with
      | [] => some Value.null
      | n :: ns => some (Value.num (ns.foldl (fun a b => max a b) n))
    else if allStr vs then
      match strsOf vs with
      | [] => some Value.null
      | s :: ss => some (Value.str (ss.foldl (fun a b => max a b) s))
    else none
  else none

/-- Effectful map over `Option` (explicit so its equations stay
kernel-reducible): `none` as soon as one element fails. -/
def mapMO {α β : Type} (f : α → Option β) : List α → Option (List β)
  | [] => some []
  | a :: l =>
    match f a, mapMO f l with
    | some b, some bs => some (b :: bs)
    | _, _ => none

/-- The aggregate list recorded for column `c` in the `agg_map`. -/
def lookupAggs (am : List (String × List String)) (c : String) : List String :=
  ((am.find? (fun p => p.1 == c)).map (fun p => p.2)).getD []

/-- The (column, aggregate) pairs of the `agg_map` in order. -/
def flatPairs (am : List (String × List String)) : List (String × String) :=
  am.flatMap (fun p => p.2.map (fun fn => (p.1, fn)))

/-- The full-aggregation branch (`work.agg(agg_map)` ungrouped, or
`gb.agg(agg_map).reset_index()` grouped, with the tuple-column flattening
loop).  Pandas details carried over: a duplicate aggregate name for one
column raises (SpecificationError), requesting a grouping column as a
metric raises (KeyError), `df.agg` on a dict of lists returns one row per
distinct aggregate name (first-appearance order, NaN where a pair was not
requested) keeping plain column names, and the grouped `reset_index` on
tuple columns yields `"{gbycol}_"` / `"{col}_{fn}"` names. -/
def fullAgg (work : Table) (gby : List String) (am : List (String × List String)) :
    Option Table :=
  if ¬ am.all (fun p => decide p.2.Nodup) then none
  else if gby = [] then
    let aggFns := dedupFirstAux [] (am.flatMap (fun p => p.2))
    let cs := am.map (fun p => p.1)
    match mapMO (fun fn => mapMO (fun c =>
        if fn ∈ lookupAggs am c then aggCell fn (colVals work c) else some Value.null) cs)
        aggFns with
    | none => none
    | some rs => some ⟨cs, rs⟩
  else if am.any (fun p => decide (p.1 ∈ gby)) then none
  else
    let keys := sortedGroupKeys work gby
    let und : String := "_"
    let cs := gby.map (fun g => g ++ und) ++
      (flatPairs am).map (fun pr => pr.1 ++ und ++ pr.2)
    match mapMO (fun key =>
        (mapMO (fun pr =>
          aggCell pr.2 ((groupRows work gby key).map (cellAt work.cols pr.1)))
          (flatPairs am)).map
          (fun cells => key ++ cells)) keys with
    | none => none
    | some rs => some ⟨cs, rs⟩

/-- `s.get("direction", "asc") == "asc"`. -/
def dirAsc (s : SortKey) : Bool := s.direction.getD "asc" == "asc"

/-- One `out = out.sort_values(by=s["column"], ascending=...)` step; `none`
models the KeyError when the key or the column is missing. -/
def sortStep (t : Table) (s : SortKey) : Option Table :=
  match s.column with
  | none => none
  | some c => if c ∈ t.cols then some (sortValues t c (dirAsc s)) else none

/-- The `for s in sort:` loop (an empty list leaves the table alone, matching
the `if sort:` guard). -/
def applySort (t : Table) : List SortKey → Option Table
  | [] => some t
  | s :: ks =>
    match sortStep t s with
    | none => none
    | some t2 => applySort t2 ks

/-- Shared tail of the three aggregate sub-branches: sort keys applied in
sequence, then `head(limit)`, paired with the branch message. -/
def finishAgg (msg : String) (out : Table) (ks : List SortKey) (lim : Int) :
    Option (String × Option Table) :=
  match applySort out ks with
  | none => none
  | some o => some (msg, some (headTable lim o))

/-- The aggregate branch of `_execute_plan` (tasks aggregate/groupby/
summarize/summary): group-key validation (`work.groupby` raises on an
unknown column), the metric loop, the count short-circuit, the
empty-`agg_map` fallback and the full aggregation. -/
def execAgg (work : Table) (gby : List String) (metrics : List Metric)
    (sortKeys : List SortKey) (lim : Int) : Option (String × Option Table) :=
  if gby.all (fun g => decide (g ∈ work.cols)) then
    match scanMetrics work.cols [] metrics with
    | AggScan.shortCircuit => finishAgg "Computed counts." (countTable work gby) sortKeys lim
    | AggScan.fellThrough am =>
      if am = [] then finishAgg "Computed counts." (countTable work gby) sortKeys lim
      else
        match fullAgg work gby am with
        | none => none
        | some out =>
          finishAgg
            (if gby = [] then "Computed summary metrics." else "Computed grouped summary metrics.")
            out sortKeys lim
  else none

/-- `work[gby or work.columns]`: project to the requested columns; `none`
models the KeyError on an unknown label. -/
def projectCols (work : Table) (gby : List String) : Option Table :=
  if gby = [] then some work
  else if gby.all (fun g => decide (g ∈ work.cols)) then
    some ⟨gby, work.rows.map (fun r => gby.map (fun g => cellAt work.cols g r))⟩
  else none

/-- The message `f"Showing up to {n} row(s)."`. -/
def showMsg (n : Nat) : String := s!"Showing up to {n} row(s)."

/-- The message `f"Top {k} by {rank_by}."`. -/
def topMsg (k : Int) (c : String) : String := s!"Top {k} by {c}."

/-- The list_rows branch of `_execute_plan`. -/
def execListRows (work : Table) (gby : List String) (lim : Int) :
    Option (String × Option Table) :=
  match projectCols work gby with
  | none => none
  | some t =>
    let out := headTable lim t
    some (showMsg out.rows.length, some out)

/-- The topk branch of `_execute_plan`: a truthy and resolvable `rank_by`
sorts descending on the raw column values and keeps the first `k` rows;
otherwise the branch returns the failure message with no table. -/
def execTopk (work : Table) (k : Int) (rankBy : Option String) :
    Option (String × Option Table) :=
  match rankBy with
  | some c =>
    if c ≠ "" ∧ c ∈ work.cols then
      some (topMsg k c, some (headTable k (sortValues work c false)))
    else some ("Ranking failed: missing rank_by column.", none)
  | none => some ("Ranking failed: missing rank_by column.", none)

/-- `_execute_plan` after its argument defaulting: filter, coerce the metric
columns, dispatch on the task string (unrecognized tasks fall through to a
plain `head(limit)` of the filtered table). -/
def execCore (df : Table) (task : String) (filters : List FilterClause)
    (gby : List String) (metrics : List Metric) (lim : Int)
    (sortKeys : List SortKey) (k : Int) (rankBy : Option String) :
    Option (String × Option Table) :=
  let work := coerceMetricCols (applyFiltersT df filters) metrics
  if task = "list_rows" ∨ task = "rows" then execListRows work gby lim
  else if task = "aggregate" ∨ task = "groupby" ∨ task = "summarize" ∨ task = "summary" then
    execAgg work gby metrics sortKeys lim
  else if task = "topk" ∨ task = "rank" then execTopk work k rankBy
  else
    let out := headTable lim work
    some (showMsg out.rows.length, some out)

/-- `_execute_plan(df, plan)`: the outer `none` models a raised exception,
the inner `none` the absent result table. -/
def executePlan (df : Table) (plan : Plan) : Option (String × Option Table) :=
  execCore df (taskEff plan) plan.filters plan.groupby plan.metrics
    (pyIntOr plan.limit 50) plan.sort (pyIntOr plan.k 10) plan.rank_by

/-- `_normalize`: strip, lower-case, and DROP every character that is not
alphanumeric or an underscore (underscores are kept, spaces vanish). -/
def pyNormalize (name : String) : String :=
  String.mk ((strLower (pyTrim name)).data.filter (fun ch => ch.isAlphanum || ch == '_'))

/-- `aliases[key] = c` with Python-dict overwrite semantics. -/
def dictInsert (m : List (String × String)) (k v : String) : List (String × String) :=
  (m.filter (fun p => p.1 ≠ k)) ++ [(k, v)]

/-- `_column_alias_map`: for every real column, record its normalization and
the normalization of its space-to-underscore respelling. -/
def columnAliasMap (columns : List String) : List (String × String) :=
  columns.foldl (fun m c =>
    let cu := String.mk (c.data.map (fun ch => if ch = ' ' then '_' else ch))
    dictInsert (dictInsert m (pyNormalize c) c) (pyNormalize cu) c) []

/-- The inner `map_col` of `_remap_plan_columns`: falsy names pass through,
otherwise look the normalization up in the alias map and fall back to the
input unchanged. -/
def mapCol (am : List (String × String)) (name : Option String) : Option String :=
  match name with
  | none => none
  | some n => if n = "" then some n else some ((List.lookup (pyNormalize n) am).getD n)

/-- `_remap_plan_columns`: rewrite the column references of filters, groupby,
metrics, sort and rank_by through `map_col`. -/
def remapPlanColumns (plan : Plan) (am : List (String × String)) : Plan :=
  { plan with
    filters := plan.filters.map (fun f => { f with column := mapCol am f.column }),
    groupby := plan.groupby.map (fun g => (mapCol am (some g)).getD g),
    metrics := plan.metrics.map (fun m => { m with column := mapCol am m.column }),
    sort := plan.sort.map (fun s => { s with column := mapCol am s.column }),
    rank_by := if pyStrOr plan.rank_by "" = "" then plan.rank_by
               else mapCol am plan.rank_by }

/-- The operator strings `_apply_filters` recognizes; any other op leaves the
row set unchanged. -/
def recognizedOps : List String :=
  ["eq", "==", "ne", "!=", ">", "gt", "<", "lt", "contains", "icontains", "between",
   "date_between"]

/-- The task names dispatched to the aggregate branch. -/
def aggTaskNames : List String := ["aggregate", "groupby", "summarize", "summary"]

/-- An all-defaults plan, overridden per scenario below. -/
def basePlan : Plan := ⟨none, [], [], [], none, [], none, none⟩

/-- The city/rent table of the spec's scenarios. -/
def tblCityRent : Table :=
  ⟨["city", "rent"],
   [[Value.str "NYC", Value.num 1000],
    [Value.str "NYC", Value.num 1200],
    [Value.str "LA", Value.num 900]]⟩

/-- A one-row city/rent table. -/
def tblOneRow : Table := ⟨["city", "rent"], [[Value.str "NYC", Value.num 1000]]⟩

/-- C1's counterexample plan: a list_rows task whose groupby names a column
that does not exist (pandas raises KeyError on `work[["zzz"]]`). -/
def planBadGroupby : Plan := { basePlan with task := some "list_rows", groupby := ["zzz"] }

/-- A topk plan with no rank_by at all. -/
def planTopkNoRank : Plan := { basePlan with task := some "topk" }

/-- C2's counterexample plan: a valid sum metric FIRST, then a bare count. -/
def planSumThenCount : Plan :=
  { basePlan with
    task := some "aggregate"
    metrics := [⟨some "sum", some "rent"⟩, ⟨some "count", none⟩] }

/-- C4's failing table: a metric column with one non-coercible value. -/
def tblOops : Table := ⟨["rent"], [[Value.str "100"], [Value.str "oops"]]⟩

/-- C4's plan: an ungrouped mean over that column. -/
def planMeanRent : Plan :=
  { basePlan with task := some "aggregate", metrics := [⟨some "mean", some "rent"⟩] }

/-- C5's counterexample table: two rows out of order for the sort key. -/
def tblBA : Table := ⟨["c"], [[Value.str "b"], [Value.str "a"]]⟩

/-- C5's counterexample plan: list_rows WITH an explicit ascending sort key. -/
def planListSorted : Plan :=
  { basePlan with task := some "list_rows", sort := [⟨some "c", some "asc"⟩] }

/-- C6's counterexample table: the rank column holds numeric STRINGS. -/
def tblStrRent : Table :=
  ⟨["city", "rent"], [[Value.str "NYC", Value.str "9"], [Value.str "LA", Value.str "10"]]⟩

/-- C6's counterexample plan: top-1 by the string-valued rent column. -/
def planTop1Rent : Plan := { basePlan with task := some "topk", k := some 1, rank_by := some "rent" }

/-- C7's counterexample table: a cell with a trailing blank. -/
def tblTrailing : Table := ⟨["a"], [[Value.str "10 "]]⟩

/-- C7's counterexample plan: equals-filter against the trimmed spelling. -/
def planEqTen : Plan :=
  { basePlan with
    task := some "list_rows"
    filters := [simpleClause (some "a") (some "eq") (some (Value.str "10"))] }

/-- C9's counterexample plan: a filter that matches nothing plus an ungrouped
count. -/
def planCountNone : Plan :=
  { basePlan with
    task := some "aggregate"
    filters := [simpleClause (some "city") (some "eq") (some (Value.str "LA"))]
    metrics := [⟨some "count", none⟩] }

/-- Scenario D's clause: a filter on a column that does not exist. -/
def clauseNoSuchCol : FilterClause :=
  simpleClause (some "nonexistent_col") (some "eq") (some (Value.str "x"))

/-- A topk plan ranking city with k = 2 (witness input for C6 and C9). -/
def planTop2City : Plan := { basePlan with task := some "topk", k := some 2, rank_by := some "city" }

/-- An aggregate count-by-city plan with no sort (witness input for C2). -/
def planCountCity : Plan :=
  { basePlan with
    task := some "aggregate"
    metrics := [⟨some "count", none⟩]
    groupby := ["city"] }

/-- An aggregate count plan with a sort on the count column (witness input
needing a succeeding aggregate with a nonempty sort). -/
def planCountSorted : Plan :=
  { basePlan with
    task := some "aggregate"
    metrics := [⟨some "count", none⟩]
    groupby := ["city"]
    sort := [⟨some "count", some "desc"⟩] }

/-! ## General lemmas about the embedded pipeline -/

theorem applyFiltersT_cols (t : Table) (fs : List FilterClause) :
    (applyFiltersT t fs).cols = t.cols := rfl

theorem colVals_length (t : Table) (c : String) :
    (colVals t c).length = t.rows.length := by
  simp [colVals]

theorem toNumericIgnore_length (vs : List Value) :
    (toNumericIgnore vs).length = vs.length := by
  unfold toNumericIgnore
  split <;> simp

theorem setCol_cols (t : Table) (c : String) (vs : List Value) :
    (setCol t c vs).cols = t.cols := rfl

theorem setCol_length (t : Table) (c : String) (vs : List Value)
    (h : vs.length = t.rows.length) :
    (setCol t c vs).rows.length = t.rows.length := by
  simp [setCol, h]

theorem coerceMetricCols_cons (t : Table) (m : Metric) (ms : List Metric) :
    coerceMetricCols t (m :: ms) =
      coerceMetricCols
        (match m.column with
         | some c =>
           if c ≠ "" ∧ c ∈ t.cols then setCol t c (toNumericIgnore (colVals t c)) else t
         | none => t) ms := rfl

theorem coerceMetricCols_cols (ms : List Metric) (t : Table) :
    (coerceMetricCols t ms).cols = t.cols := by
  induction ms generalizing t with
  | nil => rfl
  | cons m ms ih =>
    rw [coerceMetricCols_cons]
    split
    · split
      · rw [ih]
        rfl
      · exact ih t
    · exact ih t

theorem coerceMetricCols_length (ms : List Metric) (t : Table) :
    (coerceMetricCols t ms).rows.length = t.rows.length := by
  induction ms generalizing t with
  | nil => rfl
  | cons m ms ih =>
    rw [coerceMetricCols_cons]
    split
    · split
      · rw [ih]
        exact setCol_length _ _ _ ((toNumericIgnore_length _).trans (colVals_length _ _))
      · exact ih t
    · exact ih t

theorem planWork_cols (df : Table) (plan : Plan) : (planWork df plan).cols = df.cols := by
  unfold planWork
  rw [coerceMetricCols_cols]
  rfl

theorem sortValues_cols (t : Table) (c : String) (asc : Bool) :
    (sortValues t c asc).cols = t.cols := rfl

theorem sortValues_perm (t : Table) (c : String) (asc : Bool) :
    (sortValues t c asc).rows.Perm t.rows :=
  List.perm_insertionSort _ _

theorem sortValues_sorted (t : Table) (c : String) (asc : Bool) :
    (sortValues t c asc).rows.Pairwise (rowLe t.cols c asc) :=
  List.sorted_insertionSort _ _

theorem headN_sublist (n : Int) (l : List (List Value)) : (headN n l).Sublist l := by
  unfold headN
  split <;> exact List.take_sublist _ _

theorem length_headN_le (n : Int) (l : List (List Value)) (h : 0 ≤ n) :
    (headN n l).length ≤ n.toNat := by
  unfold headN
  rw [if_pos h]
  exact (List.length_take _ _).trans_le (Nat.min_le_left _ _)

theorem length_headN (n : Int) (l : List (List Value)) (h : 0 ≤ n) :
    (headN n l).length = min n.toNat l.length := by
  unfold headN
  rw [if_pos h]
  exact List.length_take _ _

theorem length_headN_le_length (n : Int) (l : List (List Value)) :
    (headN n l).length ≤ l.length :=
  (headN_sublist n l).length_le

theorem sortStep_some {t o : Table} {s : SortKey} (h : sortStep t s = some o) :
    ∃ c, s.column = some c ∧ c ∈ t.cols ∧ o = sortValues t c (dirAsc s) := by
  unfold sortStep at h
  split at h
  · cases h
  · rename_i c hc
    split at h
    · exact ⟨c, hc, by assumption, (Option.some_injective _ h).symm⟩
    · cases h

theorem applySort_cols {t o : Table} : ∀ {ks : List SortKey},
    applySort t ks = some o → o.cols = t.cols := by
  intro ks
  induction ks generalizing t with
  | nil =>
    intro h
    cases h
    rfl
  | cons s ks ih =>
    intro h
    unfold applySort at h
    cases hs : sortStep t s with
    | none => rw [hs] at h; cases h
    | some t2 =>
      rw [hs] at h
      obtain ⟨c, _, _, ht2⟩ := sortStep_some hs
      have := ih h
      rw [this, ht2]
      rfl

theorem applySort_length {t o : Table} : ∀ {ks : List SortKey},
    applySort t ks = some o → o.rows.length = t.rows.length := by
  intro ks
  induction ks generalizing t with
  | nil =>
    intro h
    cases h
    rfl
  | cons s ks ih =>
    intro h
    unfold applySort at h
    cases hs : sortStep t s with
    | none => rw [hs] at h; cases h
    | some t2 =>
      rw [hs] at h
      obtain ⟨c, _, _, ht2⟩ := sortStep_some hs
      rw [ih h, ht2]
      exact (sortValues_perm _ _ _).length_eq

theorem applySort_append_single (t : Table) (ks : List SortKey) (s : SortKey) :
    applySort t (ks ++ [s]) =
      (applySort t ks).bind (fun o => sortStep o s) := by
  induction ks generalizing t with
  | nil => cases hs : sortStep t s <;> simp [applySort, hs]
  | cons s0 ks ih => cases hs : sortStep t s0 <;> simp [applySort, hs, ih]

theorem finishAgg_some {msg0 : String} {out : Table} {ks : List SortKey} {lim : Int}
    {m : String} {t : Table} (h : finishAgg msg0 out ks lim = some (m, some t)) :
    m = msg0 ∧ ∃ o, applySort out ks = some o ∧ t = headTable lim o := by
  unfold finishAgg at h
  split at h
  · cases h
  · rename_i o ho
    simp only [Option.some.injEq, Prod.mk.injEq] at h
    exact ⟨h.1.symm, o, ho, h.2.symm⟩

theorem finishAgg_sorted {msg0 : String} {out : Table} {ks : List SortKey} {lim : Int}
    {m : String} {t : Table} {sk : SortKey} {c : String}
    (h : finishAgg msg0 out ks lim = some (m, some t))
    (hlast : ks.getLast? = some sk) (hc : sk.column = some c) :
    t.rows.Pairwise (rowLe t.cols c (dirAsc sk)) := by
  obtain ⟨-, o, ho, ht⟩ := finishAgg_some h
  have hks : ks.dropLast ++ [sk] = ks :=
    List.dropLast_append_getLast? sk (Option.mem_def.mpr hlast)
  rw [← hks, applySort_append_single] at ho
  cases ha : applySort out ks.dropLast with
  | none => rw [ha] at ho; cases ho
  | some o1 =>
    rw [ha] at ho
    simp only [Option.some_bind] at ho
    obtain ⟨c2, hc2, hm2, hoeq⟩ := sortStep_some ho
    rw [hc] at hc2
    have hcc : c2 = c := (Option.some_injective _ hc2).symm
    subst hcc
    have hsorted : o.rows.Pairwise (rowLe o1.cols c2 (dirAsc sk)) := by
      rw [hoeq]
      exact sortValues_sorted _ _ _
    have hco : o.cols = o1.cols := by rw [hoeq]; rfl
    have htc : t.cols = o1.cols := by rw [ht]; exact hco
    rw [ht]
    show (headN lim o.rows).Pairwise (rowLe (headTable lim o).cols c2 (dirAsc sk))
    have : (headTable lim o).cols = o1.cols := hco
    rw [this]
    exact hsorted.sublist (headN_sublist lim o.rows)

/-! ## Dispatch lemmas: `executePlan` reduced to its task branch -/

theorem executePlan_list_rows (df : Table) (plan : Plan)
    (h : taskEff plan = "list_rows" ∨ taskEff plan = "rows") :
    executePlan df plan =
      execListRows (planWork df plan) plan.groupby (pyIntOr plan.limit 50) := by
  rcases h with h | h <;>
    simp only [executePlan, execCore, h] <;>
    rw [if_pos (by decide)] <;> rfl

theorem executePlan_agg (df : Table) (plan : Plan)
    (h : taskEff plan = "aggregate" ∨ taskEff plan = "groupby" ∨
         taskEff plan = "summarize" ∨ taskEff plan = "summary") :
    executePlan df plan =
      execAgg (planWork df plan) plan.groupby plan.metrics plan.sort
        (pyIntOr plan.limit 50) := by
  rcases h with h | h | h | h <;>
    simp only [executePlan, execCore, h] <;>
    rw [if_neg (by decide), if_pos (by decide)] <;> rfl

theorem executePlan_topk (df : Table) (plan : Plan)
    (h : taskEff plan = "topk" ∨ taskEff plan = "rank") :
    executePlan df plan =
      execTopk (planWork df plan) (pyIntOr plan.k 10) plan.rank_by := by
  rcases h with h | h <;>
    simp only [executePlan, execCore, h] <;>
    rw [if_neg (by decide), if_neg (by decide), if_pos (by decide)] <;> rfl

/-! ## Closed evaluations: counterexamples and failing-input runs -/

/-- C3 evaluation (code bug): on a table whose canonical column is
`unit_size`, the spellings "Unit Size" and "UnitSize" do NOT resolve to it —
they normalize to "unitsize", which is not a key of the alias map, and pass
through unchanged — while "unit_size" resolves to itself.  The last conjunct
pins the cause: `_normalize` keeps underscores, although its caller's own
docstring asserts `"unit_size" -> "unitsize"`. -/
theorem C3_alias_resolution_at_unit_size :
    mapCol (columnAliasMap ["unit_size"]) (some "Unit Size") = some "Unit Size" ∧
    mapCol (columnAliasMap ["unit_size"]) (some "UnitSize") = some "UnitSize" ∧
    mapCol (columnAliasMap ["unit_size"]) (some "unit_size") = some "unit_size" ∧
    pyNormalize "unit_size" = "unit_size" := by decide

/-- C4 evaluation (code bug): an ungrouped mean over a column holding "100"
and "oops".  `errors="ignore"` leaves the whole column non-numeric, so the
mean raises and `_execute_plan` fails instead of returning 100 (the mean of
the coercible values). -/
theorem C4_mean_with_noncoercible_raises :
    executePlan tblOops planMeanRent = none := by decide

/-- C1 counterexample: a plan outside the topk task that also hard-fails
(list_rows with a groupby column that does not exist raises KeyError), so
the topk missing-rankBy case is NOT the sole hard failure of the pipeline. -/
theorem C1_counterexample_failure_outside_topk :
    executePlan tblOneRow planBadGroupby = none ∧ taskEff planBadGroupby = "list_rows" := by
  decide

/-- C2 counterexample: the metric list holds a valid sum over the existing
`rent` column FIRST and a bare count second, yet the executor still takes the
row-count short-circuit, returning only the `count` column and ignoring the
sum — so the short-circuit is not tied to the FIRST valid metric. -/
theorem C2_counterexample_short_circuit_after_valid_sum :
    executePlan tblOneRow planSumThenCount =
      some ("Computed counts.", some ⟨["count"], [[Value.num 1]]⟩) := by decide

/-- C5 counterexample: a list_rows plan with an explicit ascending sort key
on column `c` returns the rows in their original (unsorted) order — the sort
field is ignored outside the aggregate branch. -/
theorem C5_counterexample_list_rows_ignores_sort :
    executePlan tblBA planListSorted =
      some ("Showing up to 2 row(s).", some ⟨["c"], [[Value.str "b"], [Value.str "a"]]⟩) ∧
    ¬ ([[Value.str "b"], [Value.str "a"]] : List (List Value)).Pairwise
        (rowLe ["c"] "c" true) := by decide

/-- C6 counterexample: ranking by a column of numeric STRINGS sorts
lexicographically ("9" above "10"), not by numeric coercion (10 above 9):
`sort_values` runs on the raw column and `_execute_plan` never coerces the
rank column. -/
theorem C6_counterexample_lexicographic_not_numeric :
    executePlan tblStrRent planTop1Rent =
      some ("Top 1 by rent.", some ⟨["city", "rent"], [[Value.str "NYC", Value.str "9"]]⟩) := by
  decide

/-- C7 counterexample: an equals filter with value "10" rejects the cell
"10 " (trailing blank) — both sides are lower-cased but never trimmed. -/
theorem C7_counterexample_no_trim :
    executePlan tblTrailing planEqTen =
      some ("Showing up to 0 row(s).", some ⟨["a"], []⟩) := by decide

/-- C9 counterexample: with zero matching rows, the ungrouped count still
returns one row (`count = 0`), exceeding min(limit, matching rows) = 0. -/
theorem C9_counterexample_count_row_exceeds_matching :
    executePlan tblOneRow planCountNone =
      some ("Computed counts.", some ⟨["count"], [[Value.num 0]]⟩) ∧
    (applyFiltersT tblOneRow planCountNone.filters).rows.length = 0 := by decide

theorem projectCols_length {w p : Table} {g : List String}
    (h : projectCols w g = some p) : p.rows.length = w.rows.length := by
  unfold projectCols at h
  split at h
  · cases h
    rfl
  · split at h
    · cases h
      simp
    · cases h

theorem countTable_cols (t : Table) (gby : List String) :
    (countTable t gby).cols = gby ++ ["count"] := by
  unfold countTable
  split
  · rename_i h
    rw [h]
    rfl
  · rfl

theorem executePlan_default (df : Table) (plan : Plan)
    (h1 : ¬ (taskEff plan = "list_rows" ∨ taskEff plan = "rows"))
    (h2 : ¬ (taskEff plan = "aggregate" ∨ taskEff plan = "groupby" ∨
             taskEff plan = "summarize" ∨ taskEff plan = "summary"))
    (h3 : ¬ (taskEff plan = "topk" ∨ taskEff plan = "rank")) :
    executePlan df plan =
      some (showMsg (headTable (pyIntOr plan.limit 50) (planWork df plan)).rows.length,
        some (headTable (pyIntOr plan.limit 50) (planWork df plan))) := by
  simp only [executePlan, execCore]
  rw [if_neg h1, if_neg h2, if_neg h3]
  rfl

/-- The metric loop short-circuits exactly when SOME metric of the list is a
count with a missing/empty/wildcard column — whatever came before it. -/
theorem scanMetrics_shortCircuit_iff (cols : List String)
    (acc : List (String × List String)) (metrics : List Metric) :
    scanMetrics cols acc metrics = AggScan.shortCircuit ↔
      ∃ m ∈ metrics, countStar m = true := by
  induction metrics generalizing acc with
  | nil =>
    simp only [scanMetrics]
    constructor
    · intro h
      cases h
    · rintro ⟨m, hm, -⟩
      cases hm
  | cons m ms ih =>
    simp only [scanMetrics]
    by_cases hcs : countStar m = true
    · have hagg : normAgg m = "count" := by
        unfold countStar at hcs
        exact beq_iff_eq.mp ((Bool.and_eq_true _ _).mp hcs).1
      rw [if_neg (by rw [hagg]; decide), if_pos hcs]
      constructor
      · intro
        exact ⟨m, List.mem_cons_self m ms, hcs⟩
      · intro
        rfl
    · have hiff : (∃ m2 ∈ m :: ms, countStar m2 = true) ↔
          (∃ m2 ∈ ms, countStar m2 = true) := by
        constructor
        · rintro ⟨m2, hm2, hcs2⟩
          rcases List.mem_cons.mp hm2 with rfl | hmem
          · exact absurd hcs2 hcs
          · exact ⟨m2, hmem, hcs2⟩
        · rintro ⟨m2, hm2, hcs2⟩
          exact ⟨m2, List.mem_cons_of_mem _ hm2, hcs2⟩
      rw [hiff]
      by_cases ha : normAgg m ∉ ALLOWED_AGGS
      · rw [if_pos ha]
        exact ih acc
      · rw [if_neg ha, if_neg hcs]
        cases hcol : m.column with
        | none => exact ih acc
        | some c =>
          dsimp only
          by_cases hc : c ≠ "" ∧ c ∈ cols
          · rw [if_pos hc]
            exact ih _
          · rw [if_neg hc]
            exact ih acc

/-- Claim C1 (amended): a topk-task plan whose rank_by is missing, empty or
not a column of the table returns the explicit failure message and no result
table.  (This is the only deliberate failure signal, but not the sole hard
failure of the pipeline — see the counterexample theorem.) -/
theorem C1_amended_topk_failure (df : Table) (plan : Plan)
    (htask : taskEff plan = "topk" ∨ taskEff plan = "rank")
    (hrb : plan.rank_by = none ∨ plan.rank_by = some "" ∨
           ∀ c, plan.rank_by = some c → c ∉ df.cols) :
    executePlan df plan = some ("Ranking failed: missing rank_by column.", none) := by
  rw [executePlan_topk df plan htask]
  unfold execTopk
  cases hr : plan.rank_by with
  | none => rfl
  | some c =>
    have hneg : ¬ (c ≠ "" ∧ c ∈ (planWork df plan).cols) := by
      rcases hrb with h | h | h
      · rw [hr] at h
        cases h
      · rintro ⟨hne, -⟩
        exact hne (Option.some_injective _ (hr.symm.trans h))
      · rintro ⟨-, hmem⟩
        rw [planWork_cols] at hmem
        exact h c hr hmem
    show (if c ≠ "" ∧ c ∈ (planWork df plan).cols then
        some (topMsg (pyIntOr plan.k 10) c,
          some (headTable (pyIntOr plan.k 10) (sortValues (planWork df plan) c false)))
      else some ("Ranking failed: missing rank_by column.", none)) =
      some ("Ranking failed: missing rank_by column.", none)
    rw [if_neg hneg]

/-- C1 witness: the topk plan with no rank_by on a concrete table. -/
theorem C1_amended_topk_failure_witness :
    executePlan tblOneRow planTopkNoRank =
      some ("Ranking failed: missing rank_by column.", none) :=
  C1_amended_topk_failure tblOneRow planTopkNoRank (Or.inl (by decide)) (Or.inl rfl)

/-- Claim C2 (amended): the row-count short-circuit of the aggregate branch
is taken exactly when SOME metric of the plan's list — scanned in order,
skipping disallowed aggregate kinds — is a count with a missing, empty or
wildcard column; metrics before it (valid or not) and after it are all
ignored in that case, and the output is the group-size (or overall-count)
table whose columns are the group keys plus the sole metric column `count`. -/
theorem C2_amended_count_short_circuit :
    (∀ (cols : List String) (acc : List (String × List String)) (metrics : List Metric),
        scanMetrics cols acc metrics = AggScan.shortCircuit ↔
          ∃ m ∈ metrics, countStar m = true) ∧
    (∀ (df : Table) (plan : Plan),
        (taskEff plan = "aggregate" ∨ taskEff plan = "groupby" ∨
         taskEff plan = "summarize" ∨ taskEff plan = "summary") →
        plan.groupby.all (fun g => decide (g ∈ df.cols)) = true →
        plan.sort = [] →
        (∃ m ∈ plan.metrics, countStar m = true) →
        ∃ t : Table, executePlan df plan = some ("Computed counts.", some t) ∧
          t.cols = plan.groupby ++ ["count"]) := by
  constructor
  · exact scanMetrics_shortCircuit_iff
  · intro df plan htask hgby hsort hex
    rw [executePlan_agg df plan htask]
    unfold execAgg
    have hgby2 : plan.groupby.all (fun g => decide (g ∈ (planWork df plan).cols)) = true := by
      rw [planWork_cols]
      exact hgby
    rw [if_pos hgby2]
    rw [(scanMetrics_shortCircuit_iff _ _ _).mpr hex]
    rw [hsort]
    exact ⟨headTable (pyIntOr plan.limit 50) (countTable (planWork df plan) plan.groupby),
      rfl, countTable_cols _ _⟩

/-- C2 witness: a grouped bare-count plan on the city/rent table takes the
short-circuit, and the scan-level equivalence instantiates on its metric
list. -/
theorem C2_amended_count_short_circuit_witness :
    (scanMetrics ["city", "rent"] [] [⟨some "count", none⟩] = AggScan.shortCircuit ↔
      ∃ m ∈ [(⟨some "count", none⟩ : Metric)], countStar m = true) ∧
    ∃ t : Table, executePlan tblCityRent planCountCity =
        some ("Computed counts.", some t) ∧
      t.cols = planCountCity.groupby ++ ["count"] :=
  ⟨C2_amended_count_short_circuit.1 ["city", "rent"] [] [⟨some "count", none⟩],
   C2_amended_count_short_circuit.2 tblCityRent planCountCity (Or.inl (by decide))
     (by decide) rfl (by decide)⟩

/-- Claim C7 (amended): an equals (resp. not-equals) clause on an existing
column keeps exactly the rows whose cell, converted to text and lower-cased,
equals (resp. differs from) the lower-cased text of the clause value — with
NO trimming: the number 10 and the string "10" are treated as equal, but
"10 " (trailing blank) is not equal to "10". -/
theorem C7_amended_eq_ne_filter (t : Table) (c : String) (v : Option Value)
    (r : List Value) (hc : c ≠ "" ∧ c ∈ t.cols) :
    (∀ op, op = "eq" ∨ op = "==" →
      (r ∈ applyClause t.cols t.rows (simpleClause (some c) (some op) v) ↔
        r ∈ t.rows ∧ strLower (toStr (cellAt t.cols c r)) = strLower (valueStr v))) ∧
    (∀ op, op = "ne" ∨ op = "!=" →
      (r ∈ applyClause t.cols t.rows (simpleClause (some c) (some op) v) ↔
        r ∈ t.rows ∧ strLower (toStr (cellAt t.cols c r)) ≠ strLower (valueStr v))) ∧
    strLower (toStr (Value.num 10)) = strLower (toStr (Value.str "10")) ∧
    strLower (toStr (Value.str "10 ")) ≠ strLower (toStr (Value.str "10")) := by
  have hcneg : ¬ (c = "" ∨ c ∉ t.cols) := by
    rintro (h | h)
    · exact hc.1 h
    · exact h hc.2
  refine ⟨?_, ?_, by decide, by decide⟩
  · rintro op (rfl | rfl) <;>
      (simp only [applyClause, simpleClause]
       rw [if_neg hcneg, if_pos (by decide)]
       simp only [List.mem_filter, beq_iff_eq])
  · rintro op (rfl | rfl) <;>
      (simp only [applyClause, simpleClause]
       rw [if_neg hcneg, if_neg (by decide), if_pos (by decide)]
       simp only [List.mem_filter, bne_iff_ne])

/-- C7 witness: the equals/not-equals characterization instantiated on the
trailing-blank table, row ["10 "], value "10". -/
theorem C7_amended_eq_ne_filter_witness :
    (∀ op, op = "eq" ∨ op = "==" →
      ([Value.str "10 "] ∈ applyClause tblTrailing.cols tblTrailing.rows
          (simpleClause (some "a") (some op) (some (Value.str "10"))) ↔
        [Value.str "10 "] ∈ tblTrailing.rows ∧
          strLower (toStr (cellAt tblTrailing.cols "a" [Value.str "10 "])) =
            strLower (valueStr (some (Value.str "10"))))) ∧
    (∀ op, op = "ne" ∨ op = "!=" →
      ([Value.str "10 "] ∈ applyClause tblTrailing.cols tblTrailing.rows
          (simpleClause (some "a") (some op) (some (Value.str "10"))) ↔
        [Value.str "10 "] ∈ tblTrailing.rows ∧
          strLower (toStr (cellAt tblTrailing.cols "a" [Value.str "10 "])) ≠
            strLower (valueStr (some (Value.str "10"))))) ∧
    strLower (toStr (Value.num 10)) = strLower (toStr (Value.str "10")) ∧
    strLower (toStr (Value.str "10 ")) ≠ strLower (toStr (Value.str "10")) :=
  C7_amended_eq_ne_filter tblTrailing "a" (some (Value.str "10")) [Value.str "10 "]
    (by decide)

/-- Claim C8 (confirmed): a clause whose column is falsy or unknown, or whose
operator is missing or not in the recognized set, leaves the row set
unchanged; in particular such a filter returns the table untouched. -/
theorem C8_unresolved_clause_noop (t : Table) (f : FilterClause)
    (h : f.column = none ∨ f.column = some "" ∨
         (∀ c, f.column = some c → c ∉ t.cols) ∨
         f.op = none ∨ (∀ o, f.op = some o → o ∉ recognizedOps)) :
    applyClause t.cols t.rows f = t.rows ∧ applyFiltersT t [f] = t := by
  have key : applyClause t.cols t.rows f = t.rows := by
    unfold applyClause
    cases hcol : f.column with
    | none => rfl
    | some c =>
      show (if c = "" ∨ c ∉ t.cols then t.rows
        else match f.op with
          | none => t.rows
          | some op => _) = t.rows
      rcases h with h | h | h | h | h
      · rw [hcol] at h
        cases h
      · have hce : c = "" := Option.some_injective _ (hcol.symm.trans h)
        rw [if_pos (Or.inl hce)]
      · rw [if_pos (Or.inr (h c hcol))]
      · by_cases hcc : c = "" ∨ c ∉ t.cols
        · rw [if_pos hcc]
        · rw [if_neg hcc, h]
      · by_cases hcc : c = "" ∨ c ∉ t.cols
        · rw [if_pos hcc]
        · rw [if_neg hcc]
          cases hop : f.op with
          | none => rfl
          | some o =>
            have ho := h o hop
            have h1 : ¬ (o = "eq" ∨ o = "==") := by
              rintro (rfl | rfl) <;> exact ho (by decide)
            have h2 : ¬ (o = "ne" ∨ o = "!=") := by
              rintro (rfl | rfl) <;> exact ho (by decide)
            have h3 : ¬ (o = ">" ∨ o = "gt") := by
              rintro (rfl | rfl) <;> exact ho (by decide)
            have h4 : ¬ (o = "<" ∨ o = "lt") := by
              rintro (rfl | rfl) <;> exact ho (by decide)
            have h5 : ¬ (o = "contains" ∨ o = "icontains") := by
              rintro (rfl | rfl) <;> exact ho (by decide)
            have h6 : ¬ (o = "between") := by
              rintro rfl
              exact ho (by decide)
            have h7 : ¬ (o = "date_between") := by
              rintro rfl
              exact ho (by decide)
            show (if o = "eq" ∨ o = "==" then _ else _) = t.rows
            rw [if_neg h1, if_neg h2, if_neg h3, if_neg h4, if_neg h5, if_neg h6, if_neg h7]
  refine ⟨key, ?_⟩
  show Table.mk t.cols (applyClause t.cols t.rows f) = t
  rw [key]

/-- C8 witness: Scenario D — the filter {column: "nonexistent_col", op: "eq",
value: "x"} is a no-op on a concrete table. -/
theorem C8_unresolved_clause_noop_witness :
    applyClause tblOneRow.cols tblOneRow.rows clauseNoSuchCol = tblOneRow.rows ∧
    applyFiltersT tblOneRow [clauseNoSuchCol] = tblOneRow :=
  C8_unresolved_clause_noop tblOneRow clauseNoSuchCol
    (Or.inr (Or.inr (Or.inl (fun c hcol => by
      have : c = "nonexistent_col" := (Option.some_injective _ hcol).symm
      rw [this]
      decide))))

/-- Claim C5 (amended): explicit sort keys are honored only by the aggregate
task — the list_rows and topk tasks ignore the sort field entirely — and
within the aggregate task the keys are applied as successive full re-sorts,
so a produced result is ordered by the LAST sort key in its stated
direction (before truncation); lexicographic multi-key ordering and stable
tie-breaking are not what the code computes. -/
theorem C5_amended_sort_only_aggregate :
    (∀ (df : Table) (plan : Plan),
        (taskEff plan = "list_rows" ∨ taskEff plan = "rows" ∨
         taskEff plan = "topk" ∨ taskEff plan = "rank") →
        executePlan df plan = executePlan df { plan with sort := [] }) ∧
    (∀ (df : Table) (plan : Plan) (msg : String) (t : Table) (sk : SortKey) (c : String),
        (taskEff plan = "aggregate" ∨ taskEff plan = "groupby" ∨
         taskEff plan = "summarize" ∨ taskEff plan = "summary") →
        executePlan df plan = some (msg, some t) →
        plan.sort.getLast? = some sk → sk.column = some c →
        t.rows.Pairwise (rowLe t.cols c (dirAsc sk))) := by
  constructor
  · intro df plan h
    rcases h with h | h | h | h
    · rw [executePlan_list_rows df plan (Or.inl h),
        executePlan_list_rows df { plan with sort := [] } (Or.inl h)]
      rfl
    · rw [executePlan_list_rows df plan (Or.inr h),
        executePlan_list_rows df { plan with sort := [] } (Or.inr h)]
      rfl
    · rw [executePlan_topk df plan (Or.inl h),
        executePlan_topk df { plan with sort := [] } (Or.inl h)]
      rfl
    · rw [executePlan_topk df plan (Or.inr h),
        executePlan_topk df { plan with sort := [] } (Or.inr h)]
      rfl
  · intro df plan msg t sk c htask h hlast hc
    rw [executePlan_agg df plan htask] at h
    unfold execAgg at h
    split at h
    · split at h
      · exact finishAgg_sorted h hlast hc
      · split at h
        · exact finishAgg_sorted h hlast hc
        · split at h
          · cases h
          · exact finishAgg_sorted h hlast hc
    · cases h

/-- C5 witness: the sort-independence of list_rows at a concrete input, and
the last-key ordering of a concrete aggregate result (count by city sorted
descending on the count column). -/
theorem C5_amended_sort_only_aggregate_witness :
    executePlan tblBA planListSorted = executePlan tblBA { planListSorted with sort := [] } ∧
    (⟨["city", "count"], [[Value.str "NYC", Value.num 2], [Value.str "LA", Value.num 1]]⟩ :
        Table).rows.Pairwise
      (rowLe ["city", "count"] "count" (dirAsc ⟨some "count", some "desc"⟩)) :=
  ⟨C5_amended_sort_only_aggregate.1 tblBA planListSorted (Or.inl (by decide)),
   C5_amended_sort_only_aggregate.2 tblCityRent planCountSorted "Computed counts."
     ⟨["city", "count"], [[Value.str "NYC", Value.num 2], [Value.str "LA", Value.num 1]]⟩
     ⟨some "count", some "desc"⟩ "count" (Or.inl (by decide)) (by decide) (by decide) rfl⟩

/-- Claim C6 (amended): a topk plan whose rank_by resolves to a column
returns the first k rows (k defaulting to 10, zero k included) of the
filtered table sorted DESCENDING BY THE RAW COLUMN VALUES — numeric columns
numerically, string columns lexicographically, nulls last; no numeric
coercion is applied to the rank column. -/
theorem C6_amended_topk_raw_descending (df : Table) (plan : Plan) (c : String)
    (htask : taskEff plan = "topk" ∨ taskEff plan = "rank")
    (hrb : plan.rank_by = some c) (hc : c ≠ "" ∧ c ∈ df.cols)
    (hk : 0 ≤ pyIntOr plan.k 10) :
    ∃ t : Table,
      executePlan df plan = some (topMsg (pyIntOr plan.k 10) c, some t) ∧
      t.cols = df.cols ∧
      t.rows.length = min (pyIntOr plan.k 10).toNat (planWork df plan).rows.length ∧
      t.rows.Pairwise (rowLe df.cols c false) ∧
      ∀ r ∈ t.rows, r ∈ (planWork df plan).rows := by
  have hcw : c ≠ "" ∧ c ∈ (planWork df plan).cols := by
    rw [planWork_cols]
    exact hc
  refine ⟨headTable (pyIntOr plan.k 10) (sortValues (planWork df plan) c false),
    ?_, ?_, ?_, ?_, ?_⟩
  · rw [executePlan_topk df plan htask]
    unfold execTopk
    rw [hrb]
    show (if c ≠ "" ∧ c ∈ (planWork df plan).cols then _ else _) = _
    rw [if_pos hcw]
  · show (sortValues (planWork df plan) c false).cols = df.cols
    rw [sortValues_cols, planWork_cols]
  · show (headN (pyIntOr plan.k 10) (sortValues (planWork df plan) c false).rows).length = _
    rw [length_headN _ _ hk, (sortValues_perm (planWork df plan) c false).length_eq]
  · have hs := sortValues_sorted (planWork df plan) c false
    rw [planWork_cols] at hs
    exact hs.sublist (headN_sublist _ _)
  · intro r hr
    have h1 : r ∈ (sortValues (planWork df plan) c false).rows :=
      (headN_sublist _ _).subset hr
    exact (sortValues_perm (planWork df plan) c false).subset h1

/-- C6 witness: top-2 by city on the city/rent table. -/
theorem C6_amended_topk_raw_descending_witness :
    ∃ t : Table,
      executePlan tblCityRent planTop2City =
        some (topMsg (pyIntOr planTop2City.k 10) "city", some t) ∧
      t.cols = tblCityRent.cols ∧
      t.rows.length =
        min (pyIntOr planTop2City.k 10).toNat
          (planWork tblCityRent planTop2City).rows.length ∧
      t.rows.Pairwise (rowLe tblCityRent.cols "city" false) ∧
      ∀ r ∈ t.rows, r ∈ (planWork tblCityRent planTop2City).rows :=
  C6_amended_topk_raw_descending tblCityRent planTop2City "city" (Or.inl (by decide))
    rfl (by decide) (by decide)

theorem finishAgg_le {msg0 : String} {out : Table} {ks : List SortKey} {lim : Int}
    {m : String} {t : Table} (h : finishAgg msg0 out ks lim = some (m, some t))
    (hl : 0 ≤ lim) : t.rows.length ≤ lim.toNat := by
  obtain ⟨-, o, -, ht⟩ := finishAgg_some h
  rw [ht]
  exact length_headN_le _ _ hl

/-- Claim C9 (amended): whenever a result table is produced, its row count is
at most the requested limit (or k for the topk task, both after the
zero-to-default substitution); for the non-aggregate tasks it is also at most
the number of matching (filtered) rows.  An aggregate result is NOT bounded
by the matching row count: an ungrouped aggregate returns its summary rows
(at least the one count row) even when zero rows match. -/
theorem C9_amended_row_bounds (df : Table) (plan : Plan) (msg : String) (t : Table)
    (h : executePlan df plan = some (msg, some t))
    (hl : 0 ≤ pyIntOr plan.limit 50) (hk : 0 ≤ pyIntOr plan.k 10) :
    t.rows.length ≤
      (if taskEff plan = "topk" ∨ taskEff plan = "rank" then pyIntOr plan.k 10
       else pyIntOr plan.limit 50).toNat ∧
    (¬ (taskEff plan = "aggregate" ∨ taskEff plan = "groupby" ∨
        taskEff plan = "summarize" ∨ taskEff plan = "summary") →
      t.rows.length ≤ (planWork df plan).rows.length) := by
  by_cases h1 : taskEff plan = "list_rows" ∨ taskEff plan = "rows"
  · have hnt : ¬ (taskEff plan = "topk" ∨ taskEff plan = "rank") := by
      rcases h1 with h1 | h1 <;> rw [h1] <;> decide
    rw [executePlan_list_rows df plan h1] at h
    unfold execListRows at h
    split at h
    · cases h
    · rename_i p hp
      simp only [Option.some.injEq, Prod.mk.injEq] at h
      obtain ⟨-, ht⟩ := h
      rw [← ht, if_neg hnt]
      refine ⟨length_headN_le _ _ hl, fun _ => ?_⟩
      exact (length_headN_le_length _ _).trans (le_of_eq (projectCols_length hp))
  · by_cases h2 : taskEff plan = "aggregate" ∨ taskEff plan = "groupby" ∨
        taskEff plan = "summarize" ∨ taskEff plan = "summary"
    · have hnt : ¬ (taskEff plan = "topk" ∨ taskEff plan = "rank") := by
        rcases h2 with h2 | h2 | h2 | h2 <;> rw [h2] <;> decide
      rw [executePlan_agg df plan h2] at h
      unfold execAgg at h
      refine ⟨?_, fun hna => absurd h2 hna⟩
      rw [if_neg hnt]
      split at h
      · split at h
        · exact finishAgg_le h hl
        · split at h
          · exact finishAgg_le h hl
          · split at h
            · cases h
            · exact finishAgg_le h hl
      · cases h
    · by_cases h3 : taskEff plan = "topk" ∨ taskEff plan = "rank"
      · rw [executePlan_topk df plan h3] at h
        unfold execTopk at h
        rw [if_pos h3]
        split at h
        · rename_i c hr
          split at h
          · simp only [Option.some.injEq, Prod.mk.injEq] at h
            obtain ⟨-, ht⟩ := h
            rw [← ht]
            refine ⟨length_headN_le _ _ hk, fun _ => ?_⟩
            exact (length_headN_le_length _ _).trans
              (le_of_eq (sortValues_perm (planWork df plan) c false).length_eq)
          · simp at h
        · simp at h
      · rw [executePlan_default df plan h1 h2 h3] at h
        simp only [Option.some.injEq, Prod.mk.injEq] at h
        obtain ⟨-, ht⟩ := h
        rw [← ht, if_neg h3]
        exact ⟨length_headN_le _ _ hl, fun _ => length_headN_le_length _ _⟩

/-- C9 witness: the bounds instantiated on a concrete topk run (top-2 by
city over three matching rows). -/
theorem C9_amended_row_bounds_witness :
    (⟨["city", "rent"],
      [[Value.str "NYC", Value.num 1000], [Value.str "NYC", Value.num 1200]]⟩ :
        Table).rows.length ≤
      (if taskEff planTop2City = "topk" ∨ taskEff planTop2City = "rank" then
        pyIntOr planTop2City.k 10 else pyIntOr planTop2City.limit 50).toNat ∧
    (¬ (taskEff planTop2City = "aggregate" ∨ taskEff planTop2City = "groupby" ∨
        taskEff planTop2City = "summarize" ∨ taskEff planTop2City = "summary") →
      (⟨["city", "rent"],
        [[Value.str "NYC", Value.num 1000], [Value.str "NYC", Value.num 1200]]⟩ :
          Table).rows.length ≤ (planWork tblCityRent planTop2City).rows.length) :=
  C9_amended_row_bounds tblCityRent planTop2City "Top 2 by city."
    ⟨["city", "rent"], [[Value.str "NYC", Value.num 1000], [Value.str "NYC", Value.num 1200]]⟩
    (by decide) (by decide) (by decide)

theorem mapMO_length {α β : Type} {f : α → Option β} :
    ∀ {l : List α} {res : List β}, mapMO f l = some res → res.length = l.length := by
  intro l
  induction l with
  | nil =>
    intro res h
    cases h
    rfl
  | cons a l ih =>
    intro res h
    unfold mapMO at h
    split at h
    · rename_i b bs hfa hrec
      cases h
      rw [List.length_cons, List.length_cons, ih hrec]
    · cases h

theorem headN_ne_nil {n : Int} {l : List (List Value)} (hn : 1 ≤ n) (hl : l ≠ []) :
    headN n l ≠ [] := by
  have h0 : 0 ≤ n := le_trans (by norm_num) hn
  apply List.ne_nil_of_length_pos
  rw [length_headN _ _ h0]
  have h1 : 0 < n.toNat := by omega
  exact lt_min h1 (List.length_pos.mpr hl)

theorem dedupFirstAux_ne_nil {α : Type} [DecidableEq α] {l : List α} (h : l ≠ []) :
    dedupFirstAux [] l ≠ [] := by
  cases l with
  | nil => exact absurd rfl h
  | cons a l => simp [dedupFirstAux]

theorem sortedGroupKeys_ne_nil {t : Table} {gby : List String} (h : t.rows ≠ []) :
    sortedGroupKeys t gby ≠ [] := by
  unfold sortedGroupKeys
  apply List.ne_nil_of_length_pos
  rw [(List.perm_insertionSort _ _).length_eq]
  apply List.length_pos.mpr
  apply dedupFirstAux_ne_nil
  intro hmap
  exact h (List.map_eq_nil_iff.mp hmap)

theorem countTable_rows_ne_nil {t : Table} (gby : List String) (h : t.rows ≠ []) :
    (countTable t gby).rows ≠ [] := by
  unfold countTable
  split
  · simp
  · show (sortedGroupKeys t gby).map _ ≠ []
    intro hmap
    exact sortedGroupKeys_ne_nil h (List.map_eq_nil_iff.mp hmap)

theorem addAgg_entries {acc : List (String × List String)} {c a : String}
    (h : ∀ p ∈ acc, p.2 ≠ []) : ∀ p ∈ addAgg acc c a, p.2 ≠ [] := by
  intro p hp
  unfold addAgg at hp
  split at hp
  · rcases List.mem_map.mp hp with ⟨q, hq, rfl⟩
    split
    · simp
    · exact h q hq
  · rcases List.mem_append.mp hp with hq | hq
    · exact h p hq
    · rw [List.mem_singleton] at hq
      rw [hq]
      simp

theorem scanMetrics_entries {cols : List String} :
    ∀ {metrics : List Metric} {acc am : List (String × List String)},
      (∀ p ∈ acc, p.2 ≠ []) →
      scanMetrics cols acc metrics = AggScan.fellThrough am →
      ∀ p ∈ am, p.2 ≠ [] := by
  intro metrics
  induction metrics with
  | nil =>
    intro acc am hacc h
    cases h
    exact hacc
  | cons m ms ih =>
    intro acc am hacc h
    simp only [scanMetrics] at h
    split at h
    · exact ih hacc h
    · split at h
      · cases h
      · split at h
        · split at h
          · exact ih (addAgg_entries hacc) h
          · exact ih hacc h
        · exact ih hacc h

theorem fullAgg_rows_ne_nil {work : Table} {gby : List String}
    {am : List (String × List String)} {out : Table}
    (h : fullAgg work gby am = some out) (hne : am ≠ [])
    (hent : ∀ p ∈ am, p.2 ≠ []) (hw : work.rows ≠ []) : out.rows ≠ [] := by
  simp only [fullAgg] at h
  split at h
  · cases h
  · split at h
    · split at h
      · cases h
      · rename_i rs hrs
        cases h
        apply List.ne_nil_of_length_pos
        show 0 < rs.length
        rw [mapMO_length hrs]
        apply List.length_pos.mpr
        apply dedupFirstAux_ne_nil
        intro hfm
        have hall := List.flatMap_eq_nil_iff.mp hfm
        cases am with
        | nil => exact hne rfl
        | cons p am2 =>
          exact hent p (List.mem_cons_self _ _) (hall p (List.mem_cons_self _ _))
    · split at h
      · cases h
      · split at h
        · cases h
        · rename_i rs hrs
          cases h
          apply List.ne_nil_of_length_pos
          show 0 < rs.length
          rw [mapMO_length hrs]
          exact List.length_pos.mpr (sortedGroupKeys_ne_nil hw)

/-- With positive effective limit and k, a produced result table is nonempty
whenever the filtered working table is nonempty. -/
theorem executePlan_nonempty (df : Table) (plan : Plan) (msg : String) (t : Table)
    (h : executePlan df plan = some (msg, some t))
    (hl : 1 ≤ pyIntOr plan.limit 50) (hk : 1 ≤ pyIntOr plan.k 10)
    (hw : (planWork df plan).rows ≠ []) : t.rows ≠ [] := by
  by_cases h1 : taskEff plan = "list_rows" ∨ taskEff plan = "rows"
  · rw [executePlan_list_rows df plan h1] at h
    unfold execListRows at h
    split at h
    · cases h
    · rename_i p hp
      simp only [Option.some.injEq, Prod.mk.injEq] at h
      obtain ⟨-, ht⟩ := h
      rw [← ht]
      apply headN_ne_nil hl
      apply List.ne_nil_of_length_pos
      rw [projectCols_length hp]
      exact List.length_pos.mpr hw
  · by_cases h2 : taskEff plan = "aggregate" ∨ taskEff plan = "groupby" ∨
        taskEff plan = "summarize" ∨ taskEff plan = "summary"
    · rw [executePlan_agg df plan h2] at h
      unfold execAgg at h
      split at h
      · have step : ∀ {msg0 : String} {out0 : Table},
            finishAgg msg0 out0 plan.sort (pyIntOr plan.limit 50) = some (msg, some t) →
            out0.rows ≠ [] → t.rows ≠ [] := by
          intro msg0 out0 hf hout
          obtain ⟨-, o, ho, ht⟩ := finishAgg_some hf
          rw [ht]
          apply headN_ne_nil hl
          apply List.ne_nil_of_length_pos
          rw [applySort_length ho]
          exact List.length_pos.mpr hout
        split at h
        · exact step h (countTable_rows_ne_nil _ hw)
        · rename_i am hscan
          split at h
          · exact step h (countTable_rows_ne_nil _ hw)
          · rename_i hamne
            split at h
            · cases h
            · rename_i out2 hfa
              exact step h (fullAgg_rows_ne_nil hfa hamne
                (scanMetrics_entries (fun p hp => absurd hp (List.not_mem_nil p)) hscan) hw)
      · cases h
    · by_cases h3 : taskEff plan = "topk" ∨ taskEff plan = "rank"
      · rw [executePlan_topk df plan h3] at h
        unfold execTopk at h
        split at h
        · rename_i c hr
          split at h
          · simp only [Option.some.injEq, Prod.mk.injEq] at h
            obtain ⟨-, ht⟩ := h
            rw [← ht]
            apply headN_ne_nil hk
            apply List.ne_nil_of_length_pos
            rw [(sortValues_perm (planWork df plan) c false).length_eq]
            exact List.length_pos.mpr hw
          · simp at h
        · simp at h
      · rw [executePlan_default df plan h1 h2 h3] at h
        simp only [Option.some.injEq, Prod.mk.injEq] at h
        obtain ⟨-, ht⟩ := h
        rw [← ht]
        exact headN_ne_nil hl hw

/-- Claim C10 (confirmed): an explicit limit of 0 (and an explicit k of 0)
is treated exactly as an absent field — `int(x or default)` substitutes 50
and 10 — and consequently a plan with zero limit and zero k still returns a
nonempty table whenever it returns a table at all and some rows match. -/
theorem C10_zero_limit_k_defaulted (df : Table) (plan : Plan) :
    executePlan df { plan with limit := some 0 } =
      executePlan df { plan with limit := none } ∧
    executePlan df { plan with k := some 0 } = executePlan df { plan with k := none } ∧
    (∀ (msg : String) (t : Table),
      executePlan df { plan with limit := some 0, k := some 0 } = some (msg, some t) →
      (planWork df plan).rows ≠ [] → t.rows ≠ []) := by
  refine ⟨rfl, rfl, ?_⟩
  intro msg t h hw
  exact executePlan_nonempty df { plan with limit := some 0, k := some 0 } msg t h
    (by show (1 : Int) ≤ pyIntOr (some 0) 50; decide)
    (by show (1 : Int) ≤ pyIntOr (some 0) 10; decide) hw

/-- C10 witness: zero limit and zero k on a concrete grouped count. -/
theorem C10_zero_limit_k_defaulted_witness :
    executePlan tblCityRent { planCountCity with limit := some 0 } =
      executePlan tblCityRent { planCountCity with limit := none } ∧
    (⟨["city", "count"], [[Value.str "LA", Value.num 1], [Value.str "NYC", Value.num 2]]⟩ :
      Table).rows ≠ [] :=
  ⟨(C10_zero_limit_k_defaulted tblCityRent planCountCity).1,
   (C10_zero_limit_k_defaulted tblCityRent planCountCity).2.2 "Computed counts."
     ⟨["city", "count"], [[Value.str "LA", Value.num 1], [Value.str "NYC", Value.num 2]]⟩
     (by decide) (by decide)⟩
